import Mathlib

/-!
Verification development for the Reading Habit Tracker (src/app.py).
The program stores reading sessions in a single SQLite table and derives
statistics from it. We embed the rows and the queries shallowly: dates are
day numbers (the ISO strings compare lexicographically, which on valid
dates coincides with the order of day numbers), pages are integers, and
each endpoint becomes a pure function of the store plus the ambient
current time (passed as explicit parameters: the current day, the Monday
of the current week, and the first day of the current month, exactly the
three values the code derives from datetime.now()).
-/

/-- One row of reading_sessions as the read-side queries see it: date and
pages as integers, book_title and notes possibly NULL, reading_time and
created_at integers. -/
structure Session where
  date : Int
  pages : Int
  book : Option String
  notes : Option String
  readingTime : Int
  createdAt : Int
deriving Repr, DecidableEq

abbrev Store := List Session

/-- SELECT SUM(pages_read) FROM reading_sessions WHERE date = d (0 when no
row matches, matching the `or 0` applied to the NULL sum). -/
def sumOn (store : Store) (d : Int) : Int :=
  ((store.filter (fun s => decide (s.date = d))).map Session.pages).sum

/-- SELECT SUM(pages_read) FROM reading_sessions WHERE date >= c (0 when no
row matches). -/
def sumFrom (store : Store) (c : Int) : Int :=
  ((store.filter (fun s => decide (c ≤ s.date))).map Session.pages).sum

/-- SELECT SUM(pages_read) FROM reading_sessions (0 on the empty table). -/
def totalPages (store : Store) : Int :=
  (store.map Session.pages).sum

/-- SELECT MIN(date) FROM reading_sessions: none on the empty table. -/
def minDate : Store → Option Int
  | [] => none
  | s :: rest =>
      some (match minDate rest with
            | none => s.date
            | some m => min s.date m)

/-- The body of the while loop of calculate_reading_streak, with an
explicit fuel so the function is total: each iteration sums the pages of
the current day, counts the day if the sum is positive and moves one day
back, and stops at the first day whose sum is not positive. The fuel is
an artifact of the embedding: streakLoop_stable shows the
loop breaks within streakBound + 1 iterations, so any fuel beyond the
bound yields the same value as the unbounded loop. -/
def streakLoop (store : Store) : Int → Nat → Nat
  | _, 0 => 0
  | d, fuel + 1 =>
      if 0 < sumOn store d then streakLoop store (d - 1) fuel + 1 else 0

/-- Number of days from the day before the earliest stored date up to
today (0 for the empty store): an upper bound on the iterations the
streak loop can make before breaking. -/
def streakBound (today : Int) (store : Store) : Nat :=
  match minDate store with
  | none => 0
  | some m => (today - m + 1).toNat

/-- calculate_reading_streak (src/app.py lines 197-217): the backward
day-by-day walk starting at today, run with enough fuel to reach its
break branch. -/
def calculate_reading_streak (today : Int) (store : Store) : Nat :=
  streakLoop store today (streakBound today store + 1)

/-- Python round(x, 1) at exact rational precision: round to the nearest
tenth. -/
def round1 (q : Rat) : Rat :=
  (round (10 * q) : Int) / 10

/-- The avg_pages computation of get_stats before rounding: 0 when the
table is empty, otherwise total_pages / days_since_start where
days_since_start = (now - first_entry).days + 1 = today - first + 1, and
0 when days_since_start is not positive. -/
def avgRaw (today : Int) (store : Store) : Rat :=
  match minDate store with
  | none => 0
  | some first =>
      let days : Int := today - first + 1
      if 0 < days then (totalPages store : Rat) / (days : Rat) else 0

/-- The JSON payload of /api/get_stats. -/
structure Stats where
  total_pages : Int
  current_streak : Nat
  week_pages : Int
  month_pages : Int
  avg_pages_per_day : Rat
deriving Repr, DecidableEq

/-- get_stats (src/app.py lines 84-125): total pages, current streak,
pages since the Monday of the current week, pages since the first of the
current month, and the rounded average per day. -/
def get_stats (today weekStart monthStart : Int) (store : Store) : Stats :=
  { total_pages := totalPages store
  , current_streak := calculate_reading_streak today store
  , week_pages := sumFrom store weekStart
  , month_pages := sumFrom store monthStart
  , avg_pages_per_day := round1 (avgRaw today store) }

/-- The streak loop on the empty store returns 0 for every fuel. -/
theorem streakLoop_nil (d : Int) (fuel : Nat) : streakLoop [] d fuel = 0 := by
  cases fuel with
  | zero => rfl
  | succ f => simp [streakLoop, sumOn]

/-- Claim C9: on the empty store every field of get_stats is 0. -/
theorem get_stats_empty (today weekStart monthStart : Int) :
    get_stats today weekStart monthStart [] =
      { total_pages := 0, current_streak := 0, week_pages := 0
      , month_pages := 0, avg_pages_per_day := 0 } := by
  simp [get_stats, totalPages, sumFrom, calculate_reading_streak,
    streakLoop_nil, avgRaw, minDate, round1]

/-- Claim C4: appending a session (the INSERT of log_reading adds one row)
adds exactly its pages to total_pages, to week_pages and month_pages when
its date is in the respective range, and to every cutoff-range sum whose
range contains its date. -/
theorem insert_adds_pages (today weekStart monthStart : Int)
    (store : Store) (s : Session) :
    (get_stats today weekStart monthStart (store ++ [s])).total_pages =
      (get_stats today weekStart monthStart store).total_pages + s.pages ∧
    (weekStart ≤ s.date →
      (get_stats today weekStart monthStart (store ++ [s])).week_pages =
        (get_stats today weekStart monthStart store).week_pages + s.pages) ∧
    (monthStart ≤ s.date →
      (get_stats today weekStart monthStart (store ++ [s])).month_pages =
        (get_stats today weekStart monthStart store).month_pages + s.pages) ∧
    (∀ c : Int, c ≤ s.date →
      sumFrom (store ++ [s]) c = sumFrom store c + s.pages) ∧
    sumOn (store ++ [s]) s.date = sumOn store s.date + s.pages := by
  refine ⟨?_, ?_, ?_, ?_, ?_⟩
  · simp [get_stats, totalPages]
  · intro h
    simp [get_stats, sumFrom, List.filter_append, h]
  · intro h
    simp [get_stats, sumFrom, List.filter_append, h]
  · intro c h
    simp [sumFrom, List.filter_append, h]
  · simp [sumOn, List.filter_append]

/-- If the store is empty its minimum date is none, and conversely. -/
theorem minDate_eq_none_iff (store : Store) : minDate store = none ↔ store = [] := by
  cases store with
  | nil => simp [minDate]
  | cons s rest => simp [minDate]

/-- Every stored date is at least the minimum date. -/
theorem minDate_le (store : Store) (m : Int) (hm : minDate store = some m) :
    ∀ s ∈ store, m ≤ s.date := by
  induction store generalizing m with
  | nil => simp [minDate] at hm
  | cons a rest ih =>
      intro s hs
      rcases List.mem_cons.mp hs with h | h
      · subst h
        cases hrest : minDate rest with
        | none => simp [minDate, hrest] at hm; omega
        | some m' =>
            simp [minDate, hrest] at hm
            simp [← hm, min_le_left]
      · cases hrest : minDate rest with
        | none =>
            rw [minDate_eq_none_iff] at hrest
            subst hrest
            simp at h
        | some m' =>
            simp [minDate, hrest] at hm
            have := ih m' hrest s h
            omega

/-- A day with no matching session sums to zero. -/
theorem sumOn_eq_zero (store : Store) (d : Int)
    (h : ∀ s ∈ store, s.date ≠ d) : sumOn store d = 0 := by
  have hnil : store.filter (fun s => decide (s.date = d)) = [] := by
    rw [List.filter_eq_nil_iff]
    intro s hs
    simpa using h s hs
  simp [sumOn, hnil]

/-- The day streakBound days before today has a zero page sum: it is
either today itself when the whole store is dated in the future, or the
day right before the earliest stored date. -/
theorem sumOn_at_streakBound (today : Int) (store : Store) :
    sumOn store (today - (streakBound today store : Int)) = 0 := by
  cases hm : minDate store with
  | none =>
      rw [minDate_eq_none_iff] at hm
      subst hm
      simp [sumOn]
  | some m =>
      apply sumOn_eq_zero
      intro s hs
      have hle := minDate_le store m hm s hs
      simp only [streakBound, hm]
      omega

/-- If some day within reach has a non-positive sum, the loop result does
not exceed the offset of that day. -/
theorem streakLoop_le_break (store : Store) :
    ∀ (j : Nat) (d : Int) (fuel : Nat), sumOn store (d - (j : Int)) ≤ 0 →
      streakLoop store d fuel ≤ j := by
  intro j
  induction j with
  | zero =>
      intro d fuel h
      cases fuel with
      | zero => simp [streakLoop]
      | succ f =>
          have h0 : sumOn store d ≤ 0 := by simpa using h
          rw [streakLoop, if_neg (by omega)]
  | succ j ih =>
      intro d fuel h
      cases fuel with
      | zero => simp [streakLoop]
      | succ f =>
          rw [streakLoop]
          split
          · have h2 : sumOn store ((d - 1) - (j : Int)) ≤ 0 := by
              have e : (d - 1) - (j : Int) = d - ((j + 1 : Nat) : Int) := by
                push_cast
                ring
              rw [e]
              exact h
            have := ih (d - 1) f h2
            omega
          · omega

/-- Once a non-positive day is within reach of both fuels, the fuel does
not matter: the loop breaks before exhausting either. -/
theorem streakLoop_stable (store : Store) :
    ∀ (j : Nat) (d : Int) (f₁ f₂ : Nat), j < f₁ → j < f₂ →
      sumOn store (d - (j : Int)) ≤ 0 →
      streakLoop store d f₁ = streakLoop store d f₂ := by
  intro j
  induction j with
  | zero =>
      intro d f₁ f₂ h₁ h₂ h
      have h0 : sumOn store d ≤ 0 := by simpa using h
      obtain ⟨a, rfl⟩ := Nat.exists_eq_succ_of_ne_zero (by omega : f₁ ≠ 0)
      obtain ⟨b, rfl⟩ := Nat.exists_eq_succ_of_ne_zero (by omega : f₂ ≠ 0)
      rw [streakLoop, streakLoop, if_neg (by omega), if_neg (by omega)]
  | succ j ih =>
      intro d f₁ f₂ h₁ h₂ h
      obtain ⟨a, rfl⟩ := Nat.exists_eq_succ_of_ne_zero (by omega : f₁ ≠ 0)
      obtain ⟨b, rfl⟩ := Nat.exists_eq_succ_of_ne_zero (by omega : f₂ ≠ 0)
      rw [streakLoop, streakLoop]
      have h2 : sumOn store ((d - 1) - (j : Int)) ≤ 0 := by
        have e : (d - 1) - (j : Int) = d - ((j + 1 : Nat) : Int) := by
          push_cast
          ring
        rw [e]
        exact h
      split
      · rw [ih (d - 1) a b (by omega) (by omega) h2]
      · rfl

/-- Every day the loop counted had a positive page sum. -/
theorem streakLoop_pos (store : Store) :
    ∀ (fuel : Nat) (d : Int) (i : Nat), i < streakLoop store d fuel →
      0 < sumOn store (d - (i : Int)) := by
  intro fuel
  induction fuel with
  | zero =>
      intro d i hi
      simp [streakLoop] at hi
  | succ f ih =>
      intro d i hi
      rw [streakLoop] at hi
      by_cases hp : 0 < sumOn store d
      · rw [if_pos hp] at hi
        cases i with
        | zero => simpa using hp
        | succ i =>
            have := ih (d - 1) i (by omega)
            have e : (d - 1) - (i : Int) = d - ((i + 1 : Nat) : Int) := by
              push_cast
              ring
            rwa [e] at this
      · rw [if_neg hp] at hi
        omega

/-- When the loop stops before exhausting its fuel, the day right after
the counted run has a non-positive page sum: the break branch was taken. -/
theorem streakLoop_break (store : Store) :
    ∀ (fuel : Nat) (d : Int), streakLoop store d fuel < fuel →
      sumOn store (d - (streakLoop store d fuel : Int)) ≤ 0 := by
  intro fuel
  induction fuel with
  | zero =>
      intro d h
      omega
  | succ f ih =>
      intro d h
      by_cases hp : 0 < sumOn store d
      · rw [streakLoop, if_pos hp] at h ⊢
        have := ih (d - 1) (by omega)
        have e : (d - 1) - ((streakLoop store (d - 1) f : Nat) : Int) =
            d - ((streakLoop store (d - 1) f + 1 : Nat) : Int) := by
          push_cast
          ring
        rwa [e] at this
      · rw [streakLoop, if_neg hp]
        simpa using hp

/-- Conversely, a run of positive days of length N followed by a
non-positive day forces the loop to return exactly N, given fuel to reach
the break. -/
theorem streakLoop_unique (store : Store) :
    ∀ (N : Nat) (d : Int) (fuel : Nat), N < fuel →
      (∀ i : Nat, i < N → 0 < sumOn store (d - (i : Int))) →
      sumOn store (d - (N : Int)) ≤ 0 →
      streakLoop store d fuel = N := by
  intro N
  induction N with
  | zero =>
      intro d fuel hf hpos h0
      obtain ⟨a, rfl⟩ := Nat.exists_eq_succ_of_ne_zero (by omega : fuel ≠ 0)
      have : sumOn store d ≤ 0 := by simpa using h0
      rw [streakLoop, if_neg (by omega)]
  | succ N ih =>
      intro d fuel hf hpos h0
      obtain ⟨a, rfl⟩ := Nat.exists_eq_succ_of_ne_zero (by omega : fuel ≠ 0)
      have hd : 0 < sumOn store d := by simpa using hpos 0 (by omega)
      rw [streakLoop, if_pos hd]
      have e : ∀ k : Nat, (d - 1) - (k : Int) = d - ((k + 1 : Nat) : Int) := by
        intro k
        push_cast
        ring
      have := ih (d - 1) a (by omega)
        (fun i hi => by rw [e i]; exact hpos (i + 1) (by omega))
        (by rw [e N]; exact h0)
      omega

/-- The streak never exceeds its bound, so the fuel given to it in
calculate_reading_streak is never exhausted. -/
theorem calculate_reading_streak_lt_fuel (today : Int) (store : Store) :
    calculate_reading_streak today store < streakBound today store + 1 := by
  have h := streakLoop_le_break store (streakBound today store) today
    (streakBound today store + 1) (by rw [sumOn_at_streakBound])
  unfold calculate_reading_streak
  omega

/-- When every stored pages value is non-negative, every daily sum is. -/
theorem sumOn_nonneg (store : Store) (d : Int)
    (h : ∀ s ∈ store, 0 ≤ s.pages) : 0 ≤ sumOn store d := by
  apply List.sum_nonneg
  intro x hx
  simp only [List.mem_map, List.mem_filter] at hx
  obtain ⟨s, ⟨hs, _⟩, rfl⟩ := hx
  exact h s hs

/-- Claim C1: for a store whose pages are non-negative (the data model of
the spec), the streak equals N exactly when the last N consecutive days
through today each have a positive page sum and the day right before the
run has a zero sum; in particular a zero sum today forces streak 0. -/
theorem streak_characterization (today : Int) (store : Store) (N : Nat)
    (h : ∀ s ∈ store, 0 ≤ s.pages) :
    (calculate_reading_streak today store = N ↔
      ((∀ i : Nat, i < N → 0 < sumOn store (today - (i : Int))) ∧
        sumOn store (today - (N : Int)) = 0)) ∧
    (sumOn store today = 0 → calculate_reading_streak today store = 0) := by
  constructor
  · constructor
    · intro hN
      subst hN
      refine ⟨fun i hi => ?_, ?_⟩
      · exact streakLoop_pos store (streakBound today store + 1) today i hi
      · have hlt := calculate_reading_streak_lt_fuel today store
        have hbr := streakLoop_break store (streakBound today store + 1) today hlt
        have hge := sumOn_nonneg store
          (today - (calculate_reading_streak today store : Int)) h
        unfold calculate_reading_streak at *
        omega
    · rintro ⟨hpos, h0⟩
      have hNle : N ≤ streakBound today store := by
        by_contra hgt
        have := hpos (streakBound today store) (by omega)
        rw [sumOn_at_streakBound] at this
        omega
      exact streakLoop_unique store N today (streakBound today store + 1)
        (by omega) hpos (le_of_eq h0)
  · intro h0
    apply streakLoop_unique store 0 today (streakBound today store + 1) (by omega)
    · intro i hi
      omega
    · simpa using le_of_eq h0

/-- Witness for streak_characterization: two sessions on consecutive days
through day 10 and nothing on day 8 give streak 2. -/
theorem streak_characterization_witness :
    calculate_reading_streak 10
      [⟨10, 5, none, none, 0, 0⟩, ⟨9, 3, none, none, 0, 1⟩] = 2 :=
  (streak_characterization 10
      [⟨10, 5, none, none, 0, 0⟩, ⟨9, 3, none, none, 0, 1⟩] 2
      (by decide)).1.mpr
    ⟨by intro i hi
        interval_cases i <;> decide,
      by decide⟩

/-- Claim C10: the backward walk terminates: the day streakBound days
back has a zero sum, so the loop takes its break branch within
streakBound + 1 iterations, and any fuel beyond the bound computes the
same value, namely calculate_reading_streak. -/
theorem streak_loop_terminates (today : Int) (store : Store) (f₁ f₂ : Nat)
    (h₁ : streakBound today store < f₁) (h₂ : streakBound today store < f₂) :
    sumOn store (today - (streakBound today store : Int)) = 0 ∧
    streakLoop store today f₁ = streakLoop store today f₂ ∧
    streakLoop store today f₁ = calculate_reading_streak today store := by
  refine ⟨sumOn_at_streakBound today store, ?_, ?_⟩
  · exact streakLoop_stable store (streakBound today store) today f₁ f₂ h₁ h₂
      (le_of_eq (sumOn_at_streakBound today store))
  · exact streakLoop_stable store (streakBound today store) today f₁
      (streakBound today store + 1) h₁ (by omega)
      (le_of_eq (sumOn_at_streakBound today store))

/-- Witness for streak_loop_terminates at a one-session store and fuels 3
and 7. -/
theorem streak_loop_terminates_witness :
    sumOn [⟨0, 1, none, none, 0, 0⟩]
        (0 - (streakBound 0 [⟨0, 1, none, none, 0, 0⟩] : Int)) = 0 ∧
    streakLoop [⟨0, 1, none, none, 0, 0⟩] 0 3 =
      streakLoop [⟨0, 1, none, none, 0, 0⟩] 0 7 ∧
    streakLoop [⟨0, 1, none, none, 0, 0⟩] 0 3 =
      calculate_reading_streak 0 [⟨0, 1, none, none, 0, 0⟩] :=
  streak_loop_terminates 0 [⟨0, 1, none, none, 0, 0⟩] 3 7 (by decide) (by decide)

/-- Rounding an integer-valued rational changes nothing. -/
theorem round1_intCast (n : Int) : round1 ((n : Int) : Rat) = (n : Rat) := by
  unfold round1
  have e : (10 : Rat) * (n : Rat) = ((10 * n : Int) : Rat) := by
    push_cast
    ring
  rw [e, round_intCast]
  push_cast
  ring

/-- Modelled from the spec formula for avg_pages_per_day: totalPages
divided by daysBetween(firstEntryDate, today) + 1, rounded to one
decimal, with 0 for the empty store. -/
def specAvgPerDay (today : Int) (store : Store) : Rat :=
  match minDate store with
  | none => 0
  | some first => round1 ((totalPages store : Rat) / (((today - first) + 1 : Int) : Rat))

/-- Claim C5 (amended): when the earliest stored date is not after today,
avg_pages_per_day equals the spec formula; and a single session of 10
pages dated today yields exactly 10. -/
theorem avg_pages_formula (today weekStart monthStart m : Int) (store : Store)
    (hm : minDate store = some m) (hle : m ≤ today) :
    (get_stats today weekStart monthStart store).avg_pages_per_day =
      specAvgPerDay today store ∧
    (get_stats today weekStart monthStart
        [⟨today, 10, none, none, 0, 0⟩]).avg_pages_per_day = 10 := by
  constructor
  · show round1 (avgRaw today store) = specAvgPerDay today store
    unfold avgRaw specAvgPerDay
    rw [hm]
    simp only
    rw [if_pos (by omega)]
  · show round1 (avgRaw today [⟨today, 10, none, none, 0, 0⟩]) = 10
    unfold avgRaw
    simp only [minDate, totalPages, List.map_cons, List.map_nil, List.sum_cons,
      List.sum_nil]
    rw [if_pos (by omega)]
    have e : ((10 + 0 : Int) : Rat) / ((today - today + 1 : Int) : Rat) =
        ((10 : Int) : Rat) := by
      push_cast
      norm_num
    rw [e, round1_intCast]
    norm_num

/-- Witness for avg_pages_formula: a single 10-page session on day 0. -/
theorem avg_pages_formula_witness :
    (get_stats 0 0 0 [⟨0, 10, none, none, 0, 0⟩]).avg_pages_per_day =
      specAvgPerDay 0 [⟨0, 10, none, none, 0, 0⟩] ∧
    (get_stats 0 0 0 [⟨0, 10, none, none, 0, 0⟩]).avg_pages_per_day = 10 :=
  avg_pages_formula 0 0 0 0 [⟨0, 10, none, none, 0, 0⟩] (by decide) (by decide)

/-- Counterexample to claim C5 as stated: for a store whose only session
is dated two days after today, the code reports 0 while the spec formula
gives -10, so the formula does not hold for every non-empty store. -/
theorem avg_pages_formula_cex :
    (get_stats 0 0 0 [⟨2, 10, none, none, 0, 0⟩]).avg_pages_per_day ≠
      specAvgPerDay 0 [⟨2, 10, none, none, 0, 0⟩] := by
  have hL : (get_stats 0 0 0 [⟨2, 10, none, none, 0, 0⟩]).avg_pages_per_day
      = 0 := by
    show round1 (avgRaw 0 [⟨2, 10, none, none, 0, 0⟩]) = 0
    have h0 : avgRaw 0 [⟨2, 10, none, none, 0, 0⟩] = 0 := by
      unfold avgRaw
      norm_num [minDate]
    rw [h0]
    simpa using round1_intCast 0
  have hR : specAvgPerDay 0 [⟨2, 10, none, none, 0, 0⟩] = -10 := by
    unfold specAvgPerDay
    have h1 : round1 (-10 : Rat) = -10 := by simpa using round1_intCast (-10)
    norm_num [minDate, totalPages, h1]
  rw [hL, hR]
  norm_num

/-- The ORDER BY of get_recent_sessions: date descending, then created_at
descending. -/
def recentRel (a b : Session) : Prop :=
  b.date < a.date ∨ (b.date = a.date ∧ b.createdAt ≤ a.createdAt)

instance : DecidableRel recentRel := fun a b =>
  inferInstanceAs (Decidable (b.date < a.date ∨ (b.date = a.date ∧ b.createdAt ≤ a.createdAt)))

instance : IsTotal Session recentRel :=
  ⟨fun a b => by unfold recentRel; omega⟩

instance : IsTrans Session recentRel :=
  ⟨fun a b c hab hbc => by unfold recentRel at *; omega⟩

/-- One element of the /api/get_recent_sessions response. -/
structure RecentEntry where
  date : Int
  pages_read : Int
  book_title : String
  notes : String
  reading_time : Int
deriving Repr, DecidableEq

/-- The read-time display normalization applied to book_title by
get_recent_sessions (`or` with a fallback) and by the CASE expression of
the book aggregation: NULL and the empty string become Unspecified. -/
def normTitle : Option String → String
  | none => "Unspecified"
  | some t => if t = "" then "Unspecified" else t

/-- How get_recent_sessions renders one row: book_title, notes and
reading_time pass through the falsy-value fallbacks of the Python `or`. -/
def toEntry (s : Session) : RecentEntry :=
  { date := s.date
  , pages_read := s.pages
  , book_title := normTitle s.book
  , notes := (s.notes).getD ""
  , reading_time := s.readingTime }

/-- The rows get_recent_sessions selects: ORDER BY date DESC, created_at
DESC then LIMIT 10. -/
def recentRows (store : Store) : List Session :=
  (List.insertionSort recentRel store).take 10

/-- get_recent_sessions (src/app.py lines 175-195). -/
def get_recent_sessions (store : Store) : List RecentEntry :=
  (recentRows store).map toEntry

/-- Claim C6: at most 10 entries, sorted by date descending with ties
broken by created_at descending, every entry rendered from some stored
row, and the title normalization: empty or absent titles display as
Unspecified while any other title is returned unchanged. -/
theorem recent_sessions_spec (store : Store) :
    (get_recent_sessions store).length ≤ 10 ∧
    List.Sorted recentRel (recentRows store) ∧
    (∀ e ∈ get_recent_sessions store, ∃ s ∈ store, e = toEntry s) ∧
    (∀ s : Session, s.book = none ∨ s.book = some "" →
      (toEntry s).book_title = "Unspecified") ∧
    (∀ (s : Session) (t : String), s.book = some t → t ≠ "" →
      (toEntry s).book_title = t) := by
  refine ⟨?_, ?_, ?_, ?_, ?_⟩
  · calc (get_recent_sessions store).length
        = (recentRows store).length := by simp [get_recent_sessions]
      _ ≤ 10 := by simp [recentRows]
  · exact (List.sorted_insertionSort recentRel store).sublist
      (List.take_sublist 10 _)
  · intro e he
    simp only [get_recent_sessions, List.mem_map] at he
    obtain ⟨s, hs, rfl⟩ := he
    refine ⟨s, ?_, rfl⟩
    have hmem : s ∈ List.insertionSort recentRel store :=
      List.mem_of_mem_take hs
    exact (List.perm_insertionSort recentRel store).mem_iff.mp hmem
  · rintro s (h | h) <;> simp [toEntry, normTitle, h]
  · intro s t ht hne
    simp [toEntry, normTitle, ht, hne]

/-- The CASE expression of the book-distribution query: the same
normalization as the recent-sessions display. -/
def bookKey (s : Session) : String :=
  normTitle s.book

/-- The distinct group keys of GROUP BY book, in first-occurrence order. -/
def bookKeys (store : Store) : List String :=
  (store.map bookKey).dedup

/-- SUM(pages_read) within one book group. -/
def pagesForBook (store : Store) (k : String) : Int :=
  ((store.filter (fun s => decide (bookKey s = k))).map Session.pages).sum

/-- The GROUP BY book result before ordering. -/
def groupedByBook (store : Store) : List (String × Int) :=
  (bookKeys store).map (fun k => (k, pagesForBook store k))

/-- The ORDER BY pages DESC of the book-distribution query. -/
def pagesDesc (a b : String × Int) : Prop :=
  b.2 ≤ a.2

instance : DecidableRel pagesDesc := fun a b =>
  inferInstanceAs (Decidable (b.2 ≤ a.2))

instance : IsTotal (String × Int) pagesDesc :=
  ⟨fun a b => le_total b.2 a.2⟩

instance : IsTrans (String × Int) pagesDesc :=
  ⟨fun _ _ _ hab hbc => le_trans hbc hab⟩

/-- The books series of get_chart_data (src/app.py lines 154-165):
normalized book key, summed pages, ordered by pages descending, LIMIT 10. -/
def chartBooks (store : Store) : List (String × Int) :=
  (List.insertionSort pagesDesc (groupedByBook store)).take 10

/-- A session groups under the key Unspecified exactly when its title is
NULL, empty, or itself the literal Unspecified. -/
theorem bookKey_unspec_iff (s : Session) :
    bookKey s = "Unspecified" ↔
      (s.book = none ∨ s.book = some "" ∨ s.book = some "Unspecified") := by
  cases hb : s.book with
  | none => simp [bookKey, normTitle, hb]
  | some t =>
      by_cases ht : t = ""
      · subst ht
        simp [bookKey, normTitle, hb]
      · simp [bookKey, normTitle, hb, ht]

/-- Claim C7: sessions with empty and with NULL book_title aggregate under
the single key Unspecified (the group keys are distinct, and the
Unspecified group sums the pages of exactly the rows whose title is NULL,
empty, or the literal Unspecified), and the chart series is ordered by
summed pages descending and truncated to 10 entries. -/
theorem chart_books_spec (store : Store) :
    (chartBooks store).length ≤ 10 ∧
    List.Sorted pagesDesc (chartBooks store) ∧
    ((groupedByBook store).map Prod.fst).Nodup ∧
    (∀ s : Session, s.book = none ∨ s.book = some "" →
      bookKey s = "Unspecified") ∧
    pagesForBook store "Unspecified" =
      ((store.filter (fun s => decide (s.book = none) || decide (s.book = some "")
          || decide (s.book = some "Unspecified"))).map Session.pages).sum := by
  refine ⟨?_, ?_, ?_, ?_, ?_⟩
  · simp [chartBooks]
  · exact (List.sorted_insertionSort pagesDesc (groupedByBook store)).sublist
      (List.take_sublist 10 _)
  · have e : (groupedByBook store).map Prod.fst = bookKeys store := by
      unfold groupedByBook
      rw [List.map_map]
      have hc : (Prod.fst ∘ fun k => (k, pagesForBook store k)) =
          fun k : String => k := rfl
      rw [hc]
      exact List.map_id' (bookKeys store)
    rw [e]
    exact List.nodup_dedup _
  · intro s hs
    rw [bookKey_unspec_iff]
    tauto
  · unfold pagesForBook
    have hf : store.filter (fun s => decide (bookKey s = "Unspecified")) =
        store.filter (fun s => decide (s.book = none) || decide (s.book = some "")
          || decide (s.book = some "Unspecified")) := by
      apply List.filter_congr
      intro s _
      cases hb : s.book with
      | none => simp [bookKey, normTitle, hb]
      | some t =>
          by_cases ht : t = ""
          · subst ht
            simp [bookKey, normTitle, hb]
          · simp [bookKey, normTitle, hb, ht]
    rw [hf]

/-- Rounding zero changes nothing. -/
theorem round1_zero : round1 0 = 0 := by
  simpa using round1_intCast 0

/-- The WHERE clause of get_reading_velocity: date on or after the cutoff
(today minus the window) and pages_read positive. The query puts no upper
bound on the date. -/
def velQual (today days : Int) (store : Store) : Store :=
  store.filter (fun s => decide (today - days ≤ s.date) && decide (0 < s.pages))

/-- The payload of ReadingAnalytics.get_reading_velocity. -/
structure Velocity where
  avg_pages_per_session : Rat
  reading_days : Nat
  period_days : Int
deriving Repr, DecidableEq

/-- get_reading_velocity (src/app.py lines 227-242): AVG(pages_read) and
COUNT(*) over the qualifying rows; a NULL average (no rows) is replaced
by 0 before rounding. -/
def get_reading_velocity (today days : Int) (store : Store) : Velocity :=
  let qual := velQual today days store
  let avg : Rat :=
    if qual.length = 0 then 0
    else ((qual.map Session.pages).sum : Rat) / (qual.length : Rat)
  { avg_pages_per_session := round1 avg
  , reading_days := qual.length
  , period_days := days }

/-- Modelled from the spec sentence for readingVelocity: the qualifying
sessions are those with positive pages whose dates lie within the
trailing window, that is between today minus the window and today. -/
def specWindowQual (today days : Int) (store : Store) : Store :=
  store.filter (fun s => decide (today - days ≤ s.date) && decide (s.date ≤ today)
    && decide (0 < s.pages))

/-- Claim C8 (amended): the velocity counts and averages exactly the
sessions with positive pages dated on or after today minus the window,
with no upper bound on the date, and reports average 0 and count 0 when
no session qualifies. -/
theorem velocity_spec (today days : Int) (store : Store) :
    (get_reading_velocity today days store).reading_days =
      (velQual today days store).length ∧
    (get_reading_velocity today days store).period_days = days ∧
    (∀ s : Session, s ∈ velQual today days store ↔
      (s ∈ store ∧ today - days ≤ s.date ∧ 0 < s.pages)) ∧
    ((∀ s ∈ store, ¬(today - days ≤ s.date ∧ 0 < s.pages)) →
      get_reading_velocity today days store =
        { avg_pages_per_session := 0, reading_days := 0, period_days := days }) ∧
    ((velQual today days store).length ≠ 0 →
      (get_reading_velocity today days store).avg_pages_per_session =
        round1 ((((velQual today days store).map Session.pages).sum : Rat) /
          ((velQual today days store).length : Rat))) := by
  refine ⟨rfl, rfl, ?_, ?_, ?_⟩
  · intro s
    simp [velQual, List.mem_filter, and_assoc]
  · intro h
    have hq : velQual today days store = [] := by
      rw [velQual, List.filter_eq_nil_iff]
      intro s hs
      have := h s hs
      simp only [Bool.and_eq_true, decide_eq_true_eq]
      tauto
    simp [get_reading_velocity, hq, round1_zero]
  · intro h
    show round1 (if (velQual today days store).length = 0 then 0
        else (((velQual today days store).map Session.pages).sum : Rat) /
          ((velQual today days store).length : Rat)) = _
    rw [if_neg h]

/-- Counterexample to claim C8 as stated: a single 5-page session dated
10 days after today is counted by the code although it does not lie
within the trailing 7-day window. -/
theorem velocity_window_cex :
    (get_reading_velocity 0 7 [⟨10, 5, none, none, 0, 0⟩]).reading_days ≠
      (specWindowQual 0 7 [⟨10, 5, none, none, 0, 0⟩]).length := by
  decide

/-- A value bound into SQLite: the engine stores whatever the driver
binds without enforcing the declared column type, so a text value lands
unchanged even in the INTEGER pages_read column. -/
inductive SqlVal where
  | int (n : Int)
  | text (s : String)
  | null
deriving Repr, DecidableEq

/-- A raw reading_sessions row as the write paths create it. -/
structure RawSession where
  date : SqlVal
  pages_read : SqlVal
  book_title : SqlVal
  notes : SqlVal
  reading_time : SqlVal
deriving Repr, DecidableEq

/-- The JSON body of POST /api/log_reading: absent keys are none, an
explicit JSON null is some SqlVal.null. -/
structure LogRequest where
  date : Option SqlVal
  pages_read : Option SqlVal
  book_title : Option SqlVal
  notes : Option SqlVal
  reading_time : Option SqlVal
deriving Repr, DecidableEq

/-- The exceptions the write endpoint can catch: a KeyError from a
missing required key of the body, or the NOT NULL integrity error the
engine raises when a required column is bound to NULL. -/
inductive PyError where
  | keyError (field : String)
  | integrityNotNull (column : String)
deriving Repr, DecidableEq

/-- The JSON response of the write endpoint: success with the new row id,
or the catch-all failure payload built from the caught exception. -/
inductive LogResponse where
  | ok (session_id : Nat)
  | fail (error : PyError)
deriving Repr, DecidableEq

/-- log_reading (src/app.py lines 55-82): reads date and pages_read from
the body (KeyError when absent), defaults the optional fields, inserts
the row and returns its id; every exception is caught and turned into the
failure payload. No type or sign validation happens anywhere: any
non-NULL date and pages_read values are inserted exactly as given. -/
def log_reading (store : List RawSession) (req : LogRequest) :
    List RawSession × LogResponse :=
  match req.date with
  | none => (store, .fail (.keyError "date"))
  | some d =>
      match req.pages_read with
      | none => (store, .fail (.keyError "pages_read"))
      | some p =>
          if d = SqlVal.null then (store, .fail (.integrityNotNull "date"))
          else if p = SqlVal.null then
            (store, .fail (.integrityNotNull "pages_read"))
          else
            (store ++ [{ date := d
                       , pages_read := p
                       , book_title := req.book_title.getD (.text "")
                       , notes := req.notes.getD (.text "")
                       , reading_time := req.reading_time.getD (.int 0) }],
              .ok (store.length + 1))

/-- The digits-only core of Python int(): the numeral value when every
character is a decimal digit and there is at least one. -/
def digitsCore (cs : List Char) : Option Nat :=
  if cs ≠ [] ∧ cs.all Char.isDigit then
    some (cs.foldl (fun a c => a * 10 + (c.toNat - 48)) 0)
  else none

/-- Modelled from Python int() on a plain decimal literal with an
optional sign, as the CLI applies it to the pages prompt. -/
def pyInt (s : String) : Option Int :=
  match s.trim.data with
  | [] => none
  | c :: rest =>
      if c = Char.ofNat 45 then (digitsCore rest).map (fun n => -(n : Int))
      else if c = Char.ofNat 43 then (digitsCore rest).map (fun n => (n : Int))
      else (digitsCore (c :: rest)).map (fun n => (n : Int))

/-- cli_log_reading (src/app.py lines 272-302): blank date defaults to
today, pages must parse as an integer (one attempt, a parse failure
inserts nothing), book and notes are stripped strings, reading_time is
left to its column default 0. Returns the store and whether a row was
logged. -/
def cli_log_reading (store : List RawSession)
    (dateIn pagesIn bookIn notesIn todayStr : String) :
    List RawSession × Bool :=
  let date := if dateIn.trim = "" then todayStr else dateIn.trim
  match pyInt pagesIn with
  | none => (store, false)
  | some p =>
      (store ++ [{ date := .text date
                 , pages_read := .int p
                 , book_title := .text bookIn.trim
                 , notes := .text notesIn.trim
                 , reading_time := .int 0 }],
        true)

/-- A row satisfies the pages invariant when its pages_read, if it is an
integer at all, is non-negative. -/
def rowPagesNonneg (r : RawSession) : Prop :=
  ∀ n : Int, r.pages_read = .int n → 0 ≤ n

/-- Claim C2 (amended): a request with a missing date key fails with the
caught KeyError and returns the failure payload with the store unchanged;
but a request with pages_read equal to the text abc does not fail: the
string is inserted as-is and the endpoint reports success, because no
type validation exists anywhere on the path. -/
theorem log_reading_error_paths (store : List RawSession) (req : LogRequest) :
    (req.date = none →
      log_reading store req = (store, .fail (.keyError "date"))) ∧
    (∀ d : SqlVal, req.date = some d → d ≠ SqlVal.null →
      req.pages_read = some (.text "abc") →
      log_reading store req =
        (store ++ [{ date := d
                   , pages_read := .text "abc"
                   , book_title := req.book_title.getD (.text "")
                   , notes := req.notes.getD (.text "")
                   , reading_time := req.reading_time.getD (.int 0) }],
          .ok (store.length + 1))) := by
  constructor
  · intro hd
    unfold log_reading
    rw [hd]
  · intro d hd hdn hp
    unfold log_reading
    rw [hd, hp]
    dsimp only
    rw [if_neg hdn, if_neg (by simp)]

/-- Counterexample to claim C2 as stated: the concrete request with
pages_read set to the text abc is accepted: the row is inserted with the
text in the pages column and the endpoint returns success, not an
InvalidInputError failure. -/
theorem log_reading_abc_cex :
    log_reading []
        { date := some (.text "2024-01-05"), pages_read := some (.text "abc")
        , book_title := none, notes := none, reading_time := none } =
      ([{ date := .text "2024-01-05", pages_read := .text "abc"
        , book_title := .text "", notes := .text "", reading_time := .int 0 }],
        .ok 1) := by
  rfl

/-- Claim C3 (amended): neither write path checks the sign of pages_read,
so the invariant holds only conditionally: when every stored row
satisfies it and the incoming pages value is a non-negative integer (or
the request is rejected), every row of the resulting store satisfies it. -/
theorem pages_invariant_preserved (store : List RawSession) :
    (∀ req : LogRequest, (∀ r ∈ store, rowPagesNonneg r) →
      (∀ n : Int, req.pages_read = some (.int n) → 0 ≤ n) →
      ∀ r ∈ (log_reading store req).1, rowPagesNonneg r) ∧
    (∀ dateIn pagesIn bookIn notesIn todayStr : String,
      (∀ r ∈ store, rowPagesNonneg r) →
      (∀ n : Int, pyInt pagesIn = some n → 0 ≤ n) →
      ∀ r ∈ (cli_log_reading store dateIn pagesIn bookIn notesIn todayStr).1,
        rowPagesNonneg r) := by
  constructor
  · intro req hstore hreq r hr
    unfold log_reading at hr
    cases hd : req.date with
    | none =>
        rw [hd] at hr
        exact hstore r hr
    | some d =>
        rw [hd] at hr
        cases hp : req.pages_read with
        | none =>
            rw [hp] at hr
            exact hstore r hr
        | some p =>
            rw [hp] at hr
            dsimp only at hr
            by_cases hdn : d = SqlVal.null
            · rw [if_pos hdn] at hr
              exact hstore r hr
            · rw [if_neg hdn] at hr
              by_cases hpn : p = SqlVal.null
              · rw [if_pos hpn] at hr
                exact hstore r hr
              · rw [if_neg hpn] at hr
                simp only [List.mem_append, List.mem_singleton] at hr
                rcases hr with hr | rfl
                · exact hstore r hr
                · intro n hn
                  simp only at hn
                  exact hreq n (by rw [hp, hn])
  · intro dateIn pagesIn bookIn notesIn todayStr hstore hreq r hr
    unfold cli_log_reading at hr
    cases hp : pyInt pagesIn with
    | none =>
        rw [hp] at hr
        exact hstore r hr
    | some p =>
        rw [hp] at hr
        simp only [List.mem_append, List.mem_singleton] at hr
        rcases hr with hr | rfl
        · exact hstore r hr
        · intro n hn
          simp only [SqlVal.int.injEq] at hn
          subst hn
          exact hreq p hp

/-- Counterexample to claim C3 as stated: a request carrying pages_read
equal to -5 is accepted by the write endpoint, and the inserted row
violates the non-negativity invariant. -/
theorem negative_pages_accepted_cex :
    log_reading []
        { date := some (.text "2024-01-05"), pages_read := some (.int (-5))
        , book_title := none, notes := none, reading_time := none } =
      ([{ date := .text "2024-01-05", pages_read := .int (-5)
        , book_title := .text "", notes := .text "", reading_time := .int 0 }],
        .ok 1) ∧
    ¬ rowPagesNonneg
        { date := .text "2024-01-05", pages_read := .int (-5)
        , book_title := .text "", notes := .text "", reading_time := .int 0 } := by
  constructor
  · rfl
  · intro h
    have := h (-5) rfl
    omega
